import Mathlib

/-!
# Verification of the schemafire firestore `Model` core

A shallow embedding of `@schemafire/firestore`'s `Model` class
(`src/model.ts`): the action log, the mutation API (`create` / `update` /
`delete` / `attach`), the transaction orchestrator built by
`buildTransaction`, the mirroring side effect (`mirrorTransaction`) and the
`run` lifecycle with its reconciliation and `finally` cleanup.

Field data is modelled as an association list of string keys to a small
`Value` type; the host database is a read-only association list of document
references to data maps, and the transaction handle is modelled by an
explicit log of `WriteOp`s emitted in program order.  Helper modules of the
repository that are not part of `model.ts` (`model.utils.ts`, `utils.ts`,
`base.ts`, `proxy.ts`) are modelled from the specification; each such
definition carries a doc comment saying so.
-/

set_option autoImplicit false

/-- A firestore field value.  `deleteMark` models
`admin.firestore.FieldValue.delete()`, `serverStamp` the server-assigned
timestamp sentinel, `undef` a javascript `undefined` entry, and `obj` a
nested map (used for the mirror payload `{[key]: data}`). -/
inductive Value where
  | str : String → Value
  | num : Int → Value
  | boolean : Bool → Value
  | deleteMark : Value
  | serverStamp : Value
  | undef : Value
  | obj : List (String × Value) → Value
deriving Repr

/-- Field data: an ordered association list from field names to values,
mirroring a javascript object's insertion-ordered keys. -/
abbrev DataMap := List (String × Value)

/-- First-match lookup of a field, as javascript property access. -/
def DataMap.lookup : DataMap → String → Option Value
  | [], _ => none
  | (k, v) :: rest, f => if f = k then some v else DataMap.lookup rest f

/-- Property assignment: overwrite in place if the key exists (javascript
objects keep the original insertion position on overwrite), else append. -/
def DataMap.insert : DataMap → String → Value → DataMap
  | [], k, v => [(k, v)]
  | (k', v') :: rest, k, v =>
    if k = k' then (k, v) :: rest else (k', v') :: DataMap.insert rest k v

/-- Property removal (javascript `delete obj[k]`). -/
def DataMap.eraseKey : DataMap → String → DataMap
  | [], _ => []
  | (k', v') :: rest, k =>
    if k = k' then DataMap.eraseKey rest k else (k', v') :: DataMap.eraseKey rest k

/-- Object spread `{...base, ...overlay}`: overlay entries override base
entries, later overlay entries override earlier ones. -/
def DataMap.merge (base overlay : DataMap) : DataMap :=
  overlay.foldl (fun acc kv => acc.insert kv.1 kv.2) base

/-- The keys of the map, in insertion order. -/
def DataMap.keysOf (m : DataMap) : List String := m.map (·.1)

/-- lodash `isEmpty` on a plain object. -/
def DataMap.isEmpty (m : DataMap) : Bool := m matches []

@[simp] theorem DataMap.lookup_insert (m : DataMap) (k : String) (v : Value) (f : String) :
    (m.insert k v).lookup f = if f = k then some v else m.lookup f := by
  induction m with
  | nil => simp [insert, lookup]
  | cons hd tl ih =>
    rcases hd with ⟨k', v'⟩
    by_cases hk : k = k'
    · subst hk
      by_cases hf : f = k <;> simp [insert, lookup, hf]
    · by_cases hf : f = k'
      · subst hf
        simp [insert, lookup, hk, Ne.symm hk]
      · simp [insert, lookup, hk, hf, ih]

@[simp] theorem DataMap.lookup_eraseKey (m : DataMap) (k f : String) :
    (m.eraseKey k).lookup f = if f = k then none else m.lookup f := by
  induction m with
  | nil => simp [eraseKey, lookup]
  | cons hd tl ih =>
    rcases hd with ⟨k', v'⟩
    by_cases hk : k = k'
    · subst hk
      by_cases hf : f = k
      · subst hf
        simp [eraseKey, lookup, ih]
      · simp [eraseKey, lookup, hf, ih]
    · by_cases hf : f = k'
      · subst hf
        simp [eraseKey, lookup, hk, Ne.symm hk, ih]
      · simp [eraseKey, lookup, hk, hf, ih]

/-! ## Actions, transaction state, host database -/

/-- A document reference: collection path plus document id. -/
structure DocRef where
  collection : String
  id : String
deriving DecidableEq, Repr

/-- A query clause, restricted to `field == value` comparisons
(`QueryTuples` in `types.ts`; only the equality operator is exercised by the
orchestrator model). -/
structure QueryClause where
  field : String
  value : Value
deriving Repr

/-- `ModelAction` from `types.ts`: a queued, not-yet-committed operation.
A `callback` carries a function which, given the materialized data view,
returns the actions it enqueues during the transaction. -/
inductive ModelAction where
  | create (data : DataMap)
  | findOrCreate (data : DataMap)
  | update (data : DataMap)
  | delete
  | find
  | query (clauses : List QueryClause)
  | callback (fn : DataMap → List ModelAction)

/-- `ModelActions` from `types.ts`: the record of which action kinds actually
executed during a run. -/
structure ModelActions where
  create : Bool := false
  forceCreate : Bool := false
  update : Bool := false
  delete : Bool := false
  find : Bool := false
  get : Bool := false
  query : Bool := false
  callback : Bool := false
deriving DecidableEq, Repr

/-- The all-false record, javascript `{}`. -/
def ModelActions.empty : ModelActions := {}

/-- `LastRunStatus` from `types.ts`. -/
inductive LastRunStatus where
  | found
  | notFound
  | created
  | forceCreated
  | updated
  | deleted
deriving DecidableEq, Repr

/-- Errors surfaced by the model layer. -/
inductive ErrorKind where
  | validation
  | protectedField (key : String)
  | invariantViolation (msg : String)
deriving DecidableEq, Repr

/-- A freshly read record (`FirestoreRecord`): whether the snapshot exists and
its data when it does. -/
structure SyncData where
  doc : DocRef
  snapExists : Bool
  data : Option DataMap
deriving Repr

/-- `TransactionState` from `types.ts`, threaded through one transaction
attempt.  `actions` holds only the additional actions appended by callbacks
during this attempt. -/
structure TransactionState where
  rawData : DataMap
  actions : List ModelAction
  actionsRun : ModelActions
  errors : List ErrorKind
  lastRunStatus : Option LastRunStatus
  syncData : Option SyncData

/-- Modelled from the spec: `createTransactionState` (`model.utils.ts`, not
under `src/`).  A fresh state built from the model's current raw data; the
callback-appended action list starts empty and no step has run yet. -/
def createTransactionState (rawData : DataMap) : TransactionState :=
  { rawData := rawData
    actions := []
    actionsRun := {}
    errors := []
    lastRunStatus := none
    syncData := none }

/-- The host database contents, read-only during an attempt: an association
list from document references to field data. -/
abbrev Database := List (DocRef × DataMap)

/-- Resolve a document in the database. -/
def Database.lookup : Database → DocRef → Option DataMap
  | [], _ => none
  | (d, m) :: rest, doc => if doc = d then some m else Database.lookup rest doc

/-- One write or read issued against the host transaction handle, recorded in
program order.  `set` carries the firestore `{merge}` flag. -/
inductive WriteOp where
  | read (doc : DocRef)
  | queryRead (collection : String)
  | set (doc : DocRef) (data : DataMap) (merge : Bool)
  | update (doc : DocRef) (data : DataMap)
  | delete (doc : DocRef)
deriving Repr

/-! ## Schema, configuration, model -/

/-- `SchemaCacheRules`: the schema-declared mirror rule.  `name` is the target
field key (a dot-path is allowed), `idField` optionally names the local field
supplying the mirror document id, `fields` selects the source fields copied
into the mirror payload. -/
structure MirrorRule where
  collection : String
  name : String
  idField : Option String
  fields : List String
deriving Repr

/-- The merged run configuration (`SchemaConfig`). -/
structure SchemaConfig where
  maxAttempts : Nat := 5
  forceGet : Bool := false
  mirror : Bool := true
  autoValidate : Bool := true
deriving DecidableEq, Repr

/-- A caller-supplied `RunConfig`: optional overrides merged over the
schema's defaults. -/
structure RunConfig where
  maxAttempts : Option Nat := none
  forceGet : Option Bool := none
  mirror : Option Bool := none
  autoValidate : Option Bool := none
deriving Repr

/-- `setCurrentConfig`: spread the caller's overrides over the schema
defaults. -/
def SchemaConfig.mergeRun (base : SchemaConfig) (cfg : RunConfig) : SchemaConfig :=
  { maxAttempts := cfg.maxAttempts.getD base.maxAttempts
    forceGet := cfg.forceGet.getD base.forceGet
    mirror := cfg.mirror.getD base.mirror
    autoValidate := cfg.autoValidate.getD base.autoValidate }

/-- The schema collaborator (`ISchema`), restricted to what the model core
consumes.  The io-ts codec is modelled by the list of its required property
names: `decode` succeeds exactly when every required property is present. -/
structure Schema where
  collectionName : String
  defaultData : DataMap
  version : Nat
  config : SchemaConfig
  mirror : Option MirrorRule
  keys : List String
  codecProps : List String
deriving Repr

/-- The `Model` class fields (`model.ts`). -/
structure Model where
  schema : Schema
  actions : List ModelAction
  rawData : DataMap
  baseData : DataMap
  errors : List ErrorKind
  lastRunStatus : Option LastRunStatus
  existsViaCreation : Bool
  actionsRun : ModelActions
  hasRunSuccessfully : Bool
  currentRunConfig : SchemaConfig
  doc : DocRef
  id : String
  snap : Option SyncData

/-! ## Helpers modelled from the spec (utils.ts / base.ts / model.utils.ts) -/

/-- Modelled from the spec: `baseProps` (`base.ts`, not under `src/`) — the
protected base-field set: schema version plus the system-managed audit
timestamps. -/
def baseProps : List String := ["schemaVersion", "createdAt", "updatedAt"]

/-- Modelled from the spec: `isBaseProp` (`utils.ts`, not under `src/`). -/
def isBaseProp (k : String) : Bool := baseProps.contains k

/-- Modelled from the spec: `omitBaseFields` (`base.ts`, not under `src/`)
drops the protected base fields from a data map. -/
def omitBaseFields (d : DataMap) : DataMap := d.filter (fun kv => !isBaseProp kv.1)

/-- Modelled from the spec: `snapshotExists` (`model.utils.ts`, not under
`src/`) — a document counts as existing when the snapshot exists or a
creation has already been observed locally (`existsViaCreation`). -/
def snapshotExists (snap : Option SyncData) (existsViaCreation : Bool) : Bool :=
  (match snap with
    | some s => s.snapExists
    | none => false) || existsViaCreation

/-- Modelled from the spec: `serverUpdateTimestamp` (`utils.ts`, not under
`src/`) — a pure function returning the map with a server-assigned update
timestamp sentinel merged in. -/
def serverUpdateTimestamp (d : DataMap) : DataMap :=
  d.insert "updatedAt" Value.serverStamp

/-- `removeUndefined` (`@schemafire/core`): strips entries whose value is
javascript `undefined`. -/
def removeUndefined (d : DataMap) : DataMap :=
  d.filter (fun kv => !(kv.2 matches Value.undef))

/-- Modelled from the spec: `buildMirrorData` (`model.utils.ts`, not under
`src/`) — filters the outgoing payload down to the mirror rule's selected
fields (lodash `pick`). -/
def buildMirrorData (data : DataMap) : List String → DataMap
  | [] => []
  | f :: rest =>
    match data.lookup f with
    | some v => (f, v) :: buildMirrorData data rest
    | none => buildMirrorData data rest

/-- Fold one action payload into the accumulated data.  When
`withoutDeletes` is set, field-level delete markers are suppressed so that
creation payloads are never polluted by stray delete markers. -/
def applyPayload (withoutDeletes : Bool) (acc : DataMap) (payload : DataMap) : DataMap :=
  payload.foldl
    (fun a kv =>
      if withoutDeletes && (kv.2 matches Value.deleteMark) then a
      else a.insert kv.1 kv.2)
    acc

/-- Modelled from the spec: `buildUpdatedData` (`model.utils.ts`, not under
`src/`) — folds the Update and Create action payloads in insertion order
(later assignments overwrite earlier ones for the same field).
`FindOrCreate` is a distinct action kind and its payload is not folded: per
the spec a FindOrCreate whose read finds the document must reach the final
update branch with empty folded data and perform no write, and the
validation narrowing must restrict the codec to only the updated keys. -/
def buildUpdatedStep (withoutDeletes : Bool) (acc : DataMap) : ModelAction → DataMap
  | .update p => applyPayload withoutDeletes acc p
  | .create p => applyPayload withoutDeletes acc p
  | _ => acc

/-- The fold of `buildUpdatedStep` over an action list, starting empty. -/
def buildUpdatedData (withoutDeletes : Bool) (actions : List ModelAction) : DataMap :=
  actions.foldl (buildUpdatedStep withoutDeletes) []

/-- `actionsContainDelete` (`utils.ts`). -/
def actionsContainDelete (actions : List ModelAction) : Bool :=
  actions.any (· matches .delete)

/-- `actionsContainCreate` (`utils.ts`). -/
def actionsContainCreate (actions : List ModelAction) : Bool :=
  actions.any (· matches .create _)

/-- `actionsContainFindOrCreate` (`utils.ts`). -/
def actionsContainFindOrCreate (actions : List ModelAction) : Bool :=
  actions.any (· matches .findOrCreate _)

/-- `actionsContainFind` (`utils.ts`). -/
def actionsContainFind (actions : List ModelAction) : Bool :=
  actions.any (· matches .find)

/-- `actionsContainCallback` (`utils.ts`). -/
def actionsContainCallback (actions : List ModelAction) : Bool :=
  actions.any (· matches .callback _)

/-- `actionsContainUpdate` (`utils.ts`). -/
def actionsContainUpdate (actions : List ModelAction) : Bool :=
  actions.any (· matches .update _)

/-- `findQueryAction` (`utils.ts`): the first queued query's clauses. -/
def findQueryAction (actions : List ModelAction) : Option (List QueryClause) :=
  actions.findSome? fun a =>
    match a with
    | .query cs => some cs
    | _ => none

/-- Modelled from the spec: `getIdFieldFromSchema` (`model.utils.ts`, not
under `src/`) — the mirror rule's designated id field, when declared. -/
def getIdFieldFromSchema (s : Schema) : Option String :=
  s.mirror.bind (·.idField)

/-- Coerce a raw field value to a usable (truthy) mirror document id. -/
def valueToId : Option Value → Option String
  | some (.str s) => if s = "" then none else some s
  | _ => none

/-! ## Mutation API (`model.ts`) -/

/-- `Model.create`: queue a Create (`force = true`) or FindOrCreate
(`force = false`) action and merge the payload into the optimistic local
view.  No I/O happens here. -/
def Model.create (m : Model) (data : DataMap) (force : Bool) : Model :=
  { m with
    actions := m.actions ++ [if force then .create data else .findOrCreate data]
    rawData := m.rawData.merge data }

/-- The `Object.entries(data).forEach` body of `Model.update`: queue one
Update action carrying the single field and write the value into the
optimistic local view. -/
def Model.applyOneUpdate (acc : Model) (kv : String × Value) : Model :=
  { acc with
    actions := acc.actions ++ [ModelAction.update [(kv.1, kv.2)]]
    rawData := acc.rawData.insert kv.1 kv.2 }

/-- `Model.update`: no-op on an empty payload; otherwise, for each field in
insertion order, apply `Model.applyOneUpdate`. -/
def Model.update (m : Model) (data : DataMap) : Model :=
  if DataMap.isEmpty data then m
  else data.foldl Model.applyOneUpdate m

/-- The `keys.forEach` loop of `Model.delete`: process the keys in list
order, removing each from the local view, and throw a protected-field error
at the first base prop.  The error carries the model as already mutated when
the throw happens (`this` is mutated in place in the source). -/
def Model.deleteKeysGo (m : Model) : List String → Except (ErrorKind × Model) Model
  | [] => .ok m
  | k :: rest =>
    if isBaseProp k then .error (.protectedField k, m)
    else Model.deleteKeysGo { m with rawData := m.rawData.eraseKey k } rest

/-- `Model.delete`: with keys, remove them from the local optimistic view
(no server action is queued); without keys, queue a Delete action.  The
no-argument branch calls `resetRawData(this.rawData)`, which rebuilds the
data proxy over the *unchanged* raw data — the reset-to-empty call at that
site is commented out in the source. -/
def Model.delete (m : Model) (keys : Option (List String)) : Except (ErrorKind × Model) Model :=
  match keys with
  | some ks => Model.deleteKeysGo m ks
  | none => .ok { m with actions := m.actions ++ [ModelAction.delete] }

/-- `Model.attach`: queue a Callback action. -/
def Model.attach (m : Model) (fn : DataMap → List ModelAction) : Model :=
  { m with actions := m.actions ++ [ModelAction.callback fn] }

/-! ## Validation (`model.ts` `validate`, io-ts codec modelled from the spec) -/

/-- Modelled from the spec: the io-ts codec's `decode` — succeeds exactly
when every required property is present in the data. -/
def codecDecodeOk (props : List String) (d : DataMap) : Bool :=
  props.all fun f => (d.lookup f).isSome

/-- `Model.validate`: decode the full codec on a create-type action log,
otherwise a codec narrowed to only the keys being updated (so unrelated
required fields do not block partial updates). -/
def Model.validate (m : Model) : Option ErrorKind :=
  let data := omitBaseFields m.rawData
  let isCreateAction := actionsContainCreate m.actions || actionsContainFindOrCreate m.actions
  let ok :=
    if isCreateAction then
      codecDecodeOk m.schema.codecProps data
    else if actionsContainUpdate m.actions then
      let updatedKeys := (buildUpdatedData false m.actions).keysOf
      codecDecodeOk (m.schema.codecProps.filter (fun p => updatedKeys.contains p))
        (data.filter (fun kv => updatedKeys.contains kv.1))
    else
      codecDecodeOk m.schema.codecProps data
  if ok then none else some ErrorKind.validation

/-- `Model.throwIfInvalid`: validation runs only when the active run
configuration enables auto-validation. -/
def Model.throwIfInvalid (m : Model) : Except ErrorKind Unit :=
  if !m.currentRunConfig.autoValidate then Except.ok ()
  else
    match m.validate with
    | some e => Except.error e
    | none => Except.ok ()

/-! ## Mirroring (`model.ts` `mirrorTransaction`) -/

/-- Structural equality of field values (javascript `==` on the modelled
value shapes). -/
def Value.beqFn : Value → Value → Bool
  | .str a, .str b => a == b
  | .num a, .num b => a == b
  | .boolean a, .boolean b => a == b
  | .deleteMark, .deleteMark => true
  | .serverStamp, .serverStamp => true
  | .undef, .undef => true
  | .obj a, .obj b =>
    let rec go : List (String × Value) → List (String × Value) → Bool
      | [], [] => true
      | (k1, v1) :: r1, (k2, v2) :: r2 => k1 == k2 && Value.beqFn v1 v2 && go r1 r2
      | _, _ => false
    go a b
  | _, _ => false

/-- `Model.canMirror`: the schema declares a mirror rule, the model has a
non-empty id, and the active run configuration enables mirroring. -/
def Model.canMirror (m : Model) : Bool :=
  m.schema.mirror.isSome && !(m.id == "") && m.currentRunConfig.mirror

/-- The mirror document id: the designated id field's local raw value when
the rule names one, otherwise the model's own id (`idField ?
this.rawData[idField] : this.id`). -/
def Model.mirrorIdOf (m : Model) (rule : MirrorRule) : Option String :=
  match rule.idField with
  | some f => valueToId (m.rawData.lookup f)
  | none => if m.id == "" then none else some m.id

/-- `Model.mirrorTransaction`: the mirroring side effect, returning the
write ops it issues and the log messages it emits.  `none` for `allUpdates`
models the `'delete'` argument. -/
def Model.mirrorTransaction (m : Model) (allUpdates : Option DataMap) :
    List WriteOp × List String :=
  if !m.canMirror then ([], [])
  else
    match m.schema.mirror with
    | none => ([], [])
    | some rule =>
      match m.mirrorIdOf rule with
      | none => ([], ["Mirroring failed due to no provided id"])
      | some mid =>
        let doc : DocRef := ⟨rule.collection, mid⟩
        match allUpdates with
        | none =>
          ([WriteOp.set doc (serverUpdateTimestamp [(rule.name, Value.deleteMark)]) true], [])
        | some upd =>
          let data := buildMirrorData upd rule.fields
          if DataMap.isEmpty data then ([], ["No data passed into the model"])
          else
            let payload := serverUpdateTimestamp [(rule.name, Value.obj (removeUndefined data))]
            if rule.name.contains '.' then
              ([WriteOp.update doc payload, WriteOp.set doc payload true], [])
            else
              ([WriteOp.set doc payload true], [])

/-! ## Transaction step functions (modelled from the spec, `model.utils.ts`) -/

/-- Modelled from the spec: `getTransaction` (`model.utils.ts`, not under
`src/`) — read the document inside the transaction, record `syncData` and a
found / not-found status, and apply the read data to the state's raw data
unless `noData` suppresses that. -/
def getTransactionStep (db : Database) (doc : DocRef) (state : TransactionState)
    (noData : Bool) : TransactionState × WriteOp :=
  match db.lookup doc with
  | some d =>
    ({ state with
        rawData := if noData then state.rawData else d
        syncData := some ⟨doc, true, some d⟩
        lastRunStatus := some .found
        actionsRun := { state.actionsRun with get := true } },
     WriteOp.read doc)
  | none =>
    ({ state with
        syncData := some ⟨doc, false, none⟩
        lastRunStatus := some .notFound
        actionsRun := { state.actionsRun with get := true } },
     WriteOp.read doc)

/-- Does a document satisfy every queued equality clause? -/
def satisfiesClauses (d : DataMap) (cs : List QueryClause) : Bool :=
  cs.all fun c =>
    match d.lookup c.field with
    | some v => Value.beqFn v c.value
    | none => false

/-- Modelled from the spec: query resolution — the first document of the
schema's collection matching the clauses, or none. -/
def queryDb (db : Database) (collection : String) (cs : List QueryClause) :
    Option (DocRef × DataMap) :=
  db.find? fun e => e.1.collection == collection && satisfiesClauses e.2 cs

/-- Modelled from the spec: `queryTransaction` (`model.utils.ts`, not under
`src/`) — resolve the queued clauses against the collection; the state's
raw data and sync data reflect the first matching document when found. -/
def queryTransactionStep (db : Database) (collection : String) (cs : List QueryClause)
    (state : TransactionState) : TransactionState × WriteOp :=
  match queryDb db collection cs with
  | some (dref, d) =>
    ({ state with
        rawData := d
        syncData := some ⟨dref, true, some d⟩
        lastRunStatus := some .found
        actionsRun := { state.actionsRun with query := true } },
     WriteOp.queryRead collection)
  | none =>
    ({ state with
        lastRunStatus := some .notFound
        actionsRun := { state.actionsRun with query := true } },
     WriteOp.queryRead collection)

/-- The materialized data a callback observes: the base data is merged in
(mock values) until some run has succeeded. -/
def Model.materializeView (m : Model) (state : TransactionState) : DataMap :=
  if m.hasRunSuccessfully then state.rawData
  else DataMap.merge m.baseData state.rawData

/-- Modelled from the spec: `runCallbacks` (`model.utils.ts`, not under
`src/`) — invoke every queued callback in insertion order; the actions each
one enqueues are appended to the state's own action list for this attempt
only. -/
def runCallbacksStep (m : Model) (state : TransactionState) : TransactionState :=
  { state with
      actions :=
        state.actions ++
          m.actions.foldl
            (fun acc a =>
              match a with
              | .callback fn => acc ++ fn (m.materializeView state)
              | _ => acc)
            []
      actionsRun := { state.actionsRun with callback := true } }

/-- Modelled from the spec: `createTransaction` (`model.utils.ts`, not under
`src/`) — write the document (overwrite semantics) and mark the create as
run, with a created / force-created status. -/
def createTransactionStep (doc : DocRef) (data : DataMap) (state : TransactionState)
    (force : Bool) : TransactionState × WriteOp :=
  ({ state with
      lastRunStatus := some (if force then .forceCreated else .created)
      actionsRun :=
        if force then { state.actionsRun with forceCreate := true }
        else { state.actionsRun with create := true } },
   WriteOp.set doc data false)

/-- Modelled from the spec: `updateTransaction` (`model.utils.ts`, not under
`src/`) — the update-merge write of the folded data. -/
def updateTransactionStep (doc : DocRef) (data : DataMap) (state : TransactionState) :
    TransactionState × WriteOp :=
  ({ state with
      lastRunStatus := some .updated
      actionsRun := { state.actionsRun with update := true } },
   WriteOp.update doc data)

/-- Modelled from the spec: `deleteTransaction` (`model.utils.ts`, not under
`src/`) — delete the primary document. -/
def deleteTransactionStep (doc : DocRef) (state : TransactionState) :
    TransactionState × WriteOp :=
  ({ state with
      lastRunStatus := some .deleted
      actionsRun := { state.actionsRun with delete := true } },
   WriteOp.delete doc)

/-! ## The transaction orchestrator (`model.ts` `buildTransaction`) -/

/-- The outcome of one transaction attempt: the final transaction state, the
reads / writes issued against the transaction handle in program order, and
the log messages emitted. -/
structure AttemptResult where
  state : TransactionState
  ops : List WriteOp
  logs : List String

/-- The tail of the attempt after the Find / FindOrCreate branches: Create
forces a create and returns; otherwise an optional forced read happens, an
empty folded `data` returns the state unchanged, and anything else is an
update-merge write followed by the update mirror. -/
def Model.attemptTail (m : Model) (db : Database) (alwaysGet : Bool) (doc : DocRef)
    (data dataWithoutDeletes : DataMap) (state : TransactionState) (ops : List WriteOp) :
    Except ErrorKind AttemptResult :=
  if actionsContainCreate m.actions then
    match m.throwIfInvalid with
    | .error e => .error e
    | .ok _ =>
      let step := createTransactionStep doc dataWithoutDeletes state true
      let mirror := m.mirrorTransaction (some dataWithoutDeletes)
      .ok ⟨step.1, ops ++ [step.2] ++ mirror.1, mirror.2⟩
  else
    let emptyData := DataMap.isEmpty data
    let sG :=
      if alwaysGet then (getTransactionStep db doc state (!emptyData)).1 else state
    let opsG :=
      if alwaysGet then ops ++ [(getTransactionStep db doc state (!emptyData)).2] else ops
    if emptyData then .ok ⟨sG, opsG, []⟩
    else
      match m.throwIfInvalid with
      | .error e => .error e
      | .ok _ =>
        let step := updateTransactionStep doc data sG
        let mirror := m.mirrorTransaction (some data)
        .ok ⟨step.1, opsG ++ [step.2] ++ mirror.1, mirror.2⟩

/-- One transaction attempt, exactly the callback `buildTransaction` hands
to `db.runTransaction`.  Decision order: Delete (with a preparatory read
when a mirror id field is declared but locally unknown), Query, Callbacks,
fold the queued plus callback-appended actions into `data` /
`dataWithoutDeletes`, then Find, FindOrCreate, and the tail. -/
def Model.attempt (m : Model) (db : Database) (alwaysGet : Bool) :
    Except ErrorKind AttemptResult :=
  let doc := m.doc
  let state0 := createTransactionState m.rawData
  if actionsContainDelete m.actions then
    let needRead : Bool :=
      match getIdFieldFromSchema m.schema with
      | some f => (valueToId (m.rawData.lookup f)).isNone
      | none => false
    let state1 := if needRead then (getTransactionStep db doc state0 false).1 else state0
    let ops1 :=
      if needRead then [(getTransactionStep db doc state0 false).2] else ([] : List WriteOp)
    let mirror := m.mirrorTransaction none
    let step := deleteTransactionStep doc state1
    .ok ⟨step.1, ops1 ++ mirror.1 ++ [step.2], mirror.2⟩
  else
    let stateQ :=
      match findQueryAction m.actions with
      | some cs => (queryTransactionStep db m.schema.collectionName cs state0).1
      | none => state0
    let opsQ :=
      match findQueryAction m.actions with
      | some cs => [(queryTransactionStep db m.schema.collectionName cs state0).2]
      | none => ([] : List WriteOp)
    let stateC :=
      if actionsContainCallback m.actions then
        runCallbacksStep m (getTransactionStep db doc stateQ false).1
      else stateQ
    let opsC :=
      if actionsContainCallback m.actions then
        opsQ ++ [(getTransactionStep db doc stateQ false).2]
      else opsQ
    let allActions := m.actions ++ stateC.actions
    let data := buildUpdatedData false allActions
    let dataWithoutDeletes := buildUpdatedData true allActions
    let stateF :=
      if actionsContainFind m.actions then (getTransactionStep db doc stateC false).1
      else stateC
    let opsF :=
      if actionsContainFind m.actions then opsC ++ [(getTransactionStep db doc stateC false).2]
      else opsC
    if actionsContainFindOrCreate m.actions then
      let sG := (getTransactionStep db doc stateF false).1
      let opsG := opsF ++ [(getTransactionStep db doc stateF false).2]
      if !snapshotExists sG.syncData m.existsViaCreation then
        match m.throwIfInvalid with
        | .error e => .error e
        | .ok _ =>
          let step := createTransactionStep doc dataWithoutDeletes sG false
          let mirror := m.mirrorTransaction (some dataWithoutDeletes)
          .ok ⟨step.1, opsG ++ [step.2] ++ mirror.1, mirror.2⟩
      else
        m.attemptTail db alwaysGet doc data dataWithoutDeletes sG opsG
    else
      m.attemptTail db alwaysGet doc data dataWithoutDeletes stateF opsF

/-! ## Run lifecycle and reconciliation (`model.ts` `run`) -/

/-- `updateModelWithTransactionState`: copy the per-run bookkeeping from the
final transaction state, apply the freshly read record when one is present,
and reset the local raw data to empty when a delete ran. -/
def Model.updateModelWithTransactionState (m : Model) (state : TransactionState) : Model :=
  let m1 := { m with
    actionsRun := state.actionsRun
    errors := state.errors
    lastRunStatus := state.lastRunStatus }
  let m2 :=
    match state.syncData with
    | some sd =>
      { m1 with
        rawData := sd.data.getD m1.rawData
        doc := sd.doc
        id := sd.doc.id
        snap := some sd }
    | none => m1
  if state.actionsRun.delete then { m2 with rawData := [] } else m2

/-- `manageLastRunStatus`: once a run status is known, the model exists via
creation exactly when the status is updated / created / force-created. -/
def Model.manageLastRunStatus (m : Model) : Model :=
  match m.lastRunStatus with
  | none => m
  | some s =>
    { m with existsViaCreation := s = .updated || s = .created || s = .forceCreated }

/-- `forceGetIfNeeded`: when the caller's configuration requests `forceGet`
and a create or force-create ran, an additional unconditional read refreshes
the local state. -/
def Model.forceGetIfNeeded (m : Model) (db : Database) (config : RunConfig) :
    Model × List WriteOp :=
  if config.forceGet.getD false && (m.actionsRun.create || m.actionsRun.forceCreate) then
    match db.lookup m.doc with
    | some d =>
      ({ m with rawData := d, id := m.doc.id, snap := some ⟨m.doc, true, some d⟩ },
       [WriteOp.read m.doc])
    | none =>
      ({ m with id := m.doc.id, snap := some ⟨m.doc, false, none⟩ },
       [WriteOp.read m.doc])
  else (m, [])

/-- The guaranteed-cleanup step (`finally`): reset the active run
configuration and the per-run transient fields regardless of outcome. -/
def Model.finallyReset (m : Model) : Model :=
  { m with
    currentRunConfig := m.schema.config
    errors := []
    lastRunStatus := none
    actionsRun := {} }

/-- Everything a `run()` invocation produces: the model as mutated (the
source mutates `this` in place and either returns it or rethrows), the
reads / writes issued, the log messages, the thrown error if any, and the
transaction state `run` observed (when one was produced). -/
structure RunOutcome where
  model : Model
  ops : List WriteOp
  logs : List String
  error : Option ErrorKind
  state : Option TransactionState

/-- `Model.run`: set the active configuration, build and run the
transaction, reconcile the returned state, rethrow any accumulated error,
perform the optional force get, and on success clear the action log and mark
the run successful — with the `finally` cleanup on every path.  A failed
attempt's writes are discarded by the host transaction, so a thrown attempt
reports no ops. -/
def Model.run (m0 : Model) (db : Database) (config : RunConfig) : RunOutcome :=
  let m := { m0 with currentRunConfig := m0.schema.config.mergeRun config }
  let alwaysGet := config.forceGet.getD false
  if m.actions.isEmpty && !alwaysGet then
    ⟨m.finallyReset, [], ["No data to process for this model"], none, none⟩
  else
    match m.attempt db alwaysGet with
    | .error e =>
      ⟨m.finallyReset, [], ["Something went wrong with the latest push"], some e, none⟩
    | .ok r =>
      let m1 := (m.updateModelWithTransactionState r.state).manageLastRunStatus
      if m1.errors.isEmpty then
        let m2 := (m1.forceGetIfNeeded db config).1
        let extraOps := (m1.forceGetIfNeeded db config).2
        let m3 := { m2 with hasRunSuccessfully := true, actions := [] }
        ⟨m3.finallyReset, r.ops ++ extraOps, r.logs, none, some r.state⟩
      else
        ⟨m1.finallyReset, r.ops,
         r.logs ++ ["Something went wrong with the latest push"],
         m1.errors.head?, some r.state⟩

/-! ## Claim analysis: the mutation API -/

/-- The exact action sequence a single `update(payload)` call queues: one
Update action per payload field, in payload order. -/
def updateActionsOf (ps : List (String × Value)) : List ModelAction :=
  ps.map fun kv => ModelAction.update [(kv.1, kv.2)]

/-- The value of the last assignment to `f` in a payload sequence, if any. -/
def lastWrite : List (String × Value) → String → Option Value
  | [], _ => none
  | (k, v) :: rest, f =>
    match lastWrite rest f with
    | some w => some w
    | none => if f = k then some v else none

theorem updateFold_actions (ps : List (String × Value)) : ∀ (m : Model),
    (ps.foldl Model.applyOneUpdate m).actions = m.actions ++ updateActionsOf ps := by
  induction ps with
  | nil => intro m; simp [updateActionsOf]
  | cons hd tl ih =>
    intro m
    simp [updateActionsOf, ih, Model.applyOneUpdate]

theorem update_actions_eq (m : Model) (ps : List (String × Value)) :
    (m.update ps).actions = m.actions ++ updateActionsOf ps := by
  cases ps with
  | nil => simp [Model.update, DataMap.isEmpty, updateActionsOf]
  | cons hd tl =>
    simp only [Model.update, DataMap.isEmpty]
    exact updateFold_actions (hd :: tl) m

theorem lookup_fold_insert (ps : List (String × Value)) : ∀ (acc : DataMap) (f : String),
    (ps.foldl (fun a kv => DataMap.insert a kv.1 kv.2) acc).lookup f
      = match lastWrite ps f with
        | some w => some w
        | none => acc.lookup f := by
  induction ps with
  | nil => intro acc f; simp [lastWrite]
  | cons hd tl ih =>
    intro acc f
    rcases hd with ⟨k, v⟩
    simp only [List.foldl_cons, ih, lastWrite]
    cases h : lastWrite tl f with
    | some w => simp
    | none =>
      by_cases hf : f = k <;> simp [hf]

theorem buildUpdatedData_updateActions (ps : List (String × Value)) : ∀ (acc : DataMap),
    (updateActionsOf ps).foldl (buildUpdatedStep false) acc
      = ps.foldl (fun a kv => DataMap.insert a kv.1 kv.2) acc := by
  induction ps with
  | nil => intro acc; simp [updateActionsOf]
  | cons hd tl ih =>
    intro acc
    have h := ih (DataMap.insert acc hd.1 hd.2)
    simpa [updateActionsOf, buildUpdatedStep, applyPayload] using h

/-- C4.  For every sequence of `update()` calls (and callback-injected
update actions of the same single-field shape) touching the same field, the
folded data the transaction writes assigns that field the value of the last
update in insertion order; each `update(payload)` call appends exactly one
Update action per field of the payload, in payload order, and an empty
payload appends nothing. -/
theorem claim4_update_last_write_wins (m : Model) (payload : DataMap)
    (ps : List (String × Value)) (f : String) :
    (m.update payload).actions = m.actions ++ updateActionsOf payload
    ∧ (m.update []).actions = m.actions
    ∧ (buildUpdatedData false (updateActionsOf ps)).lookup f = lastWrite ps f := by
  refine ⟨update_actions_eq m payload, ?_, ?_⟩
  · simp [update_actions_eq, updateActionsOf]
  · rw [buildUpdatedData, buildUpdatedData_updateActions, lookup_fold_insert]
    cases lastWrite ps f <;> simp [DataMap.lookup]

/-! ## Claim analysis: `delete` -/

theorem deleteKeysGo_protected (keys : List String) : ∀ (m : Model),
    (∃ k ∈ keys, isBaseProp k = true) →
    ∃ k m', Model.deleteKeysGo m keys = .error (.protectedField k, m')
      ∧ isBaseProp k = true ∧ m'.actions = m.actions := by
  induction keys with
  | nil => intro m h; simp at h
  | cons hd tl ih =>
    intro m h
    by_cases hbase : isBaseProp hd = true
    · exact ⟨hd, m, by simp [Model.deleteKeysGo, hbase], hbase, rfl⟩
    · have htl : ∃ k ∈ tl, isBaseProp k = true := by
        rcases h with ⟨k, hmem, hk⟩
        rcases List.mem_cons.mp hmem with h1 | h2
        · exact absurd (h1 ▸ hk) hbase
        · exact ⟨k, h2, hk⟩
      rcases ih { m with rawData := m.rawData.eraseKey hd } htl with ⟨k, m', heq, hk, hacts⟩
      exact ⟨k, m', by simp [Model.deleteKeysGo, hbase, heq], hk, hacts⟩

/-- C5.  `delete(keys)` with any protected base field among the keys throws
a protected-field error synchronously from the mutation call itself (the
function performs no reads or writes at all), and no server action is
queued: the action log of the partially mutated model carried by the thrown
error is exactly the original action log. -/
theorem claim5_protected_field_throw (m : Model) (keys : List String)
    (h : ∃ k ∈ keys, isBaseProp k = true) :
    ∃ k m', Model.delete m (some keys) = .error (.protectedField k, m')
      ∧ isBaseProp k = true ∧ m'.actions = m.actions :=
  deleteKeysGo_protected keys m h

/-- Witness for C5 at a concrete input. -/
theorem claim5_protected_field_throw_witness :
    ∃ k m',
      Model.delete
        { schema :=
            { collectionName := "users", defaultData := [], version := 1, config := {},
              mirror := none, keys := ["a"], codecProps := [] }
          actions := [], rawData := [("a", Value.num 1)], baseData := []
          errors := [], lastRunStatus := none, existsViaCreation := false
          actionsRun := {}, hasRunSuccessfully := false, currentRunConfig := {}
          doc := ⟨"users", "u1"⟩, id := "u1", snap := none }
        (some ["a", "schemaVersion"]) = .error (.protectedField k, m')
      ∧ isBaseProp k = true ∧ m'.actions = [] :=
  claim5_protected_field_throw _ _ ⟨"schemaVersion", by decide, by decide⟩

/-- C10.  `delete(keys)` is not atomic on error: the keys are processed in
list order, so every non-protected key before the first protected key is
already removed from the local optimistic view of the model carried by the
thrown error. -/
theorem claim10_delete_keys_not_atomic (pre : List String) :
    ∀ (m : Model) (post : List String) (k : String),
    (∀ p ∈ pre, isBaseProp p = false) → isBaseProp k = true →
    Model.delete m (some (pre ++ k :: post))
      = .error (.protectedField k,
          { m with rawData := pre.foldl DataMap.eraseKey m.rawData }) := by
  induction pre with
  | nil =>
    intro m post k _ hk
    simp [Model.delete, Model.deleteKeysGo, hk]
  | cons hd tl ih =>
    intro m post k hpre hk
    have hhd : isBaseProp hd = false := hpre hd (List.mem_cons_self hd tl)
    have htl : ∀ p ∈ tl, isBaseProp p = false := fun p hp => hpre p (List.mem_cons_of_mem hd hp)
    have := ih { m with rawData := m.rawData.eraseKey hd } post k htl hk
    simpa [Model.delete, Model.deleteKeysGo, hhd] using this

/-- A minimal concrete schema for witnesses. -/
def sampleSchema : Schema :=
  { collectionName := "users", defaultData := [], version := 1, config := {},
    mirror := none, keys := ["x", "z"], codecProps := [] }

/-- A freshly constructed concrete model over `sampleSchema` holding the
given raw data. -/
def sampleModel (raw : DataMap) : Model :=
  { schema := sampleSchema
    actions := [], rawData := raw, baseData := []
    errors := [], lastRunStatus := none, existsViaCreation := false
    actionsRun := {}, hasRunSuccessfully := false, currentRunConfig := {}
    doc := ⟨"users", "u1"⟩, id := "u1", snap := none }

/-- Witness for C10 at a concrete input: `x` is removed from the local view
before the protected key `createdAt` throws; `z` after it is untouched. -/
theorem claim10_delete_keys_not_atomic_witness :
    Model.delete (sampleModel [("x", Value.num 1), ("z", Value.num 2)])
      (some (["x"] ++ "createdAt" :: ["z"]))
      = .error (.protectedField "createdAt",
          { sampleModel [("x", Value.num 1), ("z", Value.num 2)] with
              rawData := [("z", Value.num 2)] }) := by
  have h := claim10_delete_keys_not_atomic ["x"]
    (sampleModel [("x", Value.num 1), ("z", Value.num 2)]) ["z"] "createdAt"
    (by decide) (by decide)
  exact h

/-- C2 counterexample.  The claim says the no-argument `delete()` resets the
local optimistic view to empty immediately at queue time.  It does not: the
source calls `resetRawData(this.rawData)` (the reset-to-empty call at that
site is commented out), so on a concrete model holding `{a: 1}` the queued
model still holds `{a: 1}`. -/
theorem claim2_queue_time_reset_counterexample :
    Model.delete (sampleModel [("a", Value.num 1)]) none
      = .ok { sampleModel [("a", Value.num 1)] with actions := [ModelAction.delete] }
    ∧ ({ sampleModel [("a", Value.num 1)] with
          actions := [ModelAction.delete] } : Model).rawData = [("a", Value.num 1)]
    ∧ [("a", Value.num 1)] ≠ ([] : DataMap) := by
  refine ⟨rfl, rfl, ?_⟩
  simp

/-- C2 amended.  The no-argument `delete()` appends a Delete action to the
Action Log and leaves the local optimistic view unchanged at queue time; the
view is reset to empty only during post-run reconciliation
(`updateModelWithTransactionState`), once the transaction state records that
a delete action actually ran. -/
theorem claim2_delete_resets_only_on_reconcile (m : Model) (s : TransactionState) :
    Model.delete m none = .ok { m with actions := m.actions ++ [ModelAction.delete] }
    ∧ (Except.map Model.rawData (Model.delete m none)
        = .ok m.rawData)
    ∧ (s.actionsRun.delete = true → (m.updateModelWithTransactionState s).rawData = []) := by
  refine ⟨rfl, rfl, fun h => ?_⟩
  unfold Model.updateModelWithTransactionState
  cases s.syncData <;> simp [h]

/-- Witness for the amended C2 at concrete inputs. -/
theorem claim2_delete_resets_only_on_reconcile_witness :
    (Except.map Model.rawData
        (Model.delete (sampleModel [("a", Value.num 1)]) none)
      = .ok [("a", Value.num 1)])
    ∧ ((sampleModel [("a", Value.num 1)]).updateModelWithTransactionState
        { rawData := [("a", Value.num 1)], actions := [], actionsRun := { delete := true },
          errors := [], lastRunStatus := some .deleted, syncData := none }).rawData = [] :=
  ⟨(claim2_delete_resets_only_on_reconcile (sampleModel [("a", Value.num 1)])
      { rawData := [("a", Value.num 1)], actions := [], actionsRun := { delete := true },
        errors := [], lastRunStatus := some .deleted, syncData := none }).2.1,
   (claim2_delete_resets_only_on_reconcile (sampleModel [("a", Value.num 1)])
      { rawData := [("a", Value.num 1)], actions := [], actionsRun := { delete := true },
        errors := [], lastRunStatus := some .deleted, syncData := none }).2.2 rfl⟩

/-! ## Claim analysis: the Mirror Writer -/

/-- A non-destructive write: a merge-set or a field update.  A set with
`merge = false` (a destructive replace) and a whole-document delete are not
merge writes. -/
def WriteOp.isMergeWrite : WriteOp → Bool
  | .set _ _ merge => merge
  | .update _ _ => true
  | _ => false

theorem mirrorTransaction_merge_writes (m : Model) (arg : Option DataMap) :
    ∀ op ∈ (m.mirrorTransaction arg).1, op.isMergeWrite = true := by
  intro op hop
  unfold Model.mirrorTransaction at hop
  split at hop
  · simp at hop
  · split at hop
    · simp at hop
    · split at hop
      · simp at hop
      · split at hop
        · simp at hop
          simp [hop, WriteOp.isMergeWrite]
        · split at hop
          · simp only [] at hop
            split at hop
            · simp at hop
            · simp at hop
              rcases hop with h | h <;> simp [h, WriteOp.isMergeWrite]
          · simp only [] at hop
            split at hop
            · simp at hop
            · simp at hop
              simp [hop, WriteOp.isMergeWrite]

/-- A concrete mirror rule used by the mirror fixtures. -/
def mirrorRule : MirrorRule := ⟨"mirrors", "user", some "mirrorId", ["a", "b"]⟩

/-- `sampleSchema` with mirroring declared. -/
def mirrorSchema : Schema :=
  { collectionName := "users", defaultData := [], version := 1, config := {},
    mirror := some mirrorRule, keys := ["a", "b", "mirrorId"], codecProps := [] }

/-- A concrete model over `mirrorSchema`. -/
def mirrorModel (raw : DataMap) : Model :=
  { sampleModel raw with schema := mirrorSchema }

/-- C3 amended.  Every write the Mirror Writer performs is a merge-style
write (a merge-set or a field update) — never a destructive replace — for
every target key, including dot-path keys; and the delete-marker case is a
single merge-set targeting only the configured key plus the server
update-timestamp stamp field. -/
theorem claim3_mirror_merge_except_delete_marker (m : Model) (arg : Option DataMap)
    (rule : MirrorRule) (mid : String)
    (hmir : m.schema.mirror = some rule)
    (hcan : m.canMirror = true)
    (hid : m.mirrorIdOf rule = some mid)
    (hname : rule.name ≠ "updatedAt") :
    (∀ op ∈ (m.mirrorTransaction arg).1, op.isMergeWrite = true)
    ∧ (m.mirrorTransaction none).1
        = [WriteOp.set ⟨rule.collection, mid⟩
            [(rule.name, Value.deleteMark), ("updatedAt", Value.serverStamp)] true] := by
  refine ⟨mirrorTransaction_merge_writes m arg, ?_⟩
  unfold Model.mirrorTransaction
  simp only [hcan, hmir, hid, serverUpdateTimestamp, DataMap.insert,
    Bool.not_true, Bool.false_eq_true, if_false]
  simp [Ne.symm hname]

/-- C3 counterexample.  The claim says the delete-marker write targets only
the configured key; in fact `serverUpdateTimestamp` merges the server
update-timestamp stamp into the payload, so at a concrete model the single
delete-marker write targets the configured key `user` *and* `updatedAt`. -/
theorem claim3_delete_marker_counterexample :
    (Model.mirrorTransaction (mirrorModel [("mirrorId", Value.str "m1")]) none).1
      = [WriteOp.set ⟨"mirrors", "m1"⟩
          [("user", Value.deleteMark), ("updatedAt", Value.serverStamp)] true]
    ∧ DataMap.keysOf [("user", Value.deleteMark), ("updatedAt", Value.serverStamp)]
        ≠ ["user"] := by
  exact ⟨rfl, by decide⟩

/-- Witness for the amended C3 at a concrete model. -/
theorem claim3_mirror_merge_except_delete_marker_witness :
    ((Model.mirrorTransaction (mirrorModel [("mirrorId", Value.str "m1")]) none).1
      = [WriteOp.set ⟨"mirrors", "m1"⟩
          [("user", Value.deleteMark), ("updatedAt", Value.serverStamp)] true])
    ∧ (∀ op ∈ (Model.mirrorTransaction (mirrorModel [("mirrorId", Value.str "m1")]) none).1,
        op.isMergeWrite = true) :=
  have h := claim3_mirror_merge_except_delete_marker
    (mirrorModel [("mirrorId", Value.str "m1")]) none mirrorRule "m1"
    rfl rfl rfl (by decide)
  ⟨h.2, h.1⟩

/-! ## Claim analysis: the run lifecycle -/

/-- C7.  With an empty Action Log and a configuration that does not request
`forceGet`, `run()` performs no I/O at all — no transaction read, write or
query is issued — and resolves immediately with the model unchanged (for a
model in its idle state, where the per-run transient fields are already
reset). -/
theorem claim7_idle_run_no_io (m : Model) (db : Database) (config : RunConfig)
    (hact : m.actions = [])
    (hforce : config.forceGet.getD false = false)
    (herr : m.errors = [])
    (hstatus : m.lastRunStatus = none)
    (hrun : m.actionsRun = ModelActions.empty)
    (hcfg : m.currentRunConfig = m.schema.config) :
    Model.run m db config = ⟨m, [], ["No data to process for this model"], none, none⟩ := by
  unfold Model.run
  simp only [hact, hforce, List.isEmpty_nil, Bool.not_false, Bool.and_self, if_true]
  cases m
  simp_all [Model.finallyReset, ModelActions.empty]

/-- Witness for C7 at a concrete idle model. -/
theorem claim7_idle_run_no_io_witness :
    Model.run (sampleModel [("a", Value.num 1)]) [] {}
      = ⟨sampleModel [("a", Value.num 1)], [],
          ["No data to process for this model"], none, none⟩ :=
  claim7_idle_run_no_io (sampleModel [("a", Value.num 1)]) [] {}
    rfl rfl rfl rfl rfl rfl

/-- C1.  On a model with no other queued actions, `create(data, false)`
queues a FindOrCreate action; when the document already exists in the
database, `run()` issues exactly one read — no create, update or delete
write at all, so no existing field of the document is overwritten — the
attempt's final status is `found` (not a created status), and no error is
thrown. -/
theorem claim1_findOrCreate_found_no_write (m : Model) (db : Database)
    (payload docData : DataMap) (config : RunConfig)
    (hact : m.actions = [])
    (hdb : Database.lookup db m.doc = some docData)
    (hforce : config.forceGet.getD false = false) :
    (Model.run (m.create payload false) db config).ops = [WriteOp.read m.doc]
    ∧ (Model.run (m.create payload false) db config).error = none
    ∧ ∃ s, (Model.run (m.create payload false) db config).state = some s
        ∧ s.lastRunStatus = some LastRunStatus.found := by
  simp [Model.run, Model.create, Model.attempt, Model.attemptTail, hact, hforce, hdb,
    actionsContainDelete, findQueryAction, actionsContainCallback, actionsContainFind,
    actionsContainFindOrCreate, actionsContainCreate, buildUpdatedData, buildUpdatedStep,
    getTransactionStep, snapshotExists, DataMap.isEmpty, createTransactionState,
    Model.updateModelWithTransactionState, Model.manageLastRunStatus,
    Model.forceGetIfNeeded, getIdFieldFromSchema]

/-- Witness for C1 at a concrete model and database. -/
theorem claim1_findOrCreate_found_no_write_witness :
    (Model.run ((sampleModel []).create [("a", Value.num 1)] false)
        [(⟨"users", "u1"⟩, [("a", Value.num 5)])] {}).ops
      = [WriteOp.read ⟨"users", "u1"⟩]
    ∧ (Model.run ((sampleModel []).create [("a", Value.num 1)] false)
        [(⟨"users", "u1"⟩, [("a", Value.num 5)])] {}).error = none
    ∧ ∃ s, (Model.run ((sampleModel []).create [("a", Value.num 1)] false)
        [(⟨"users", "u1"⟩, [("a", Value.num 5)])] {}).state = some s
        ∧ s.lastRunStatus = some LastRunStatus.found :=
  claim1_findOrCreate_found_no_write (sampleModel [])
    [(⟨"users", "u1"⟩, [("a", Value.num 5)])]
    [("a", Value.num 1)] [("a", Value.num 5)] {} rfl rfl rfl

/-- C9.  With a Delete action queued, a mirror rule declaring an id field,
and no local value for that field: the transaction performs a preparatory
read, but the read result is not applied to the model's local raw data
before the mirror step (that reset is commented out in the source), so even
when the document in the database carries a usable mirror id under that
field, the mirror delete resolves no id and is skipped with a log message,
while the primary document delete still proceeds and the run succeeds. -/
theorem claim9_mirror_delete_stale_raw_data (m : Model) (db : Database)
    (rule : MirrorRule) (f : String) (docData : DataMap) (mid : String)
    (config : RunConfig)
    (hact : m.actions = [ModelAction.delete])
    (hmir : m.schema.mirror = some rule)
    (hidf : rule.idField = some f)
    (hlocal : valueToId (m.rawData.lookup f) = none)
    (hid : m.id ≠ "")
    (hmircfg : (m.schema.config.mergeRun config).mirror = true)
    (hdb : Database.lookup db m.doc = some docData)
    (_hdocid : valueToId (docData.lookup f) = some mid) :
    (Model.run m db config).ops = [WriteOp.read m.doc, WriteOp.delete m.doc]
    ∧ (Model.run m db config).logs = ["Mirroring failed due to no provided id"]
    ∧ (Model.run m db config).error = none := by
  have hidb : (m.id == "") = false := by simp [hid]
  simp [Model.run, Model.attempt, hact, hmir, hidf, hlocal, hidb, hmircfg, hdb,
    actionsContainDelete, getIdFieldFromSchema, getTransactionStep,
    Model.mirrorTransaction, Model.canMirror, Model.mirrorIdOf,
    deleteTransactionStep, createTransactionState,
    Model.updateModelWithTransactionState, Model.manageLastRunStatus,
    Model.forceGetIfNeeded]

/-- Witness for C9 at a concrete model, rule and database. -/
theorem claim9_mirror_delete_stale_raw_data_witness :
    (Model.run { mirrorModel [] with actions := [ModelAction.delete] }
        [(⟨"users", "u1"⟩, [("mirrorId", Value.str "m1")])] {}).ops
      = [WriteOp.read ⟨"users", "u1"⟩, WriteOp.delete ⟨"users", "u1"⟩]
    ∧ (Model.run { mirrorModel [] with actions := [ModelAction.delete] }
        [(⟨"users", "u1"⟩, [("mirrorId", Value.str "m1")])] {}).logs
      = ["Mirroring failed due to no provided id"]
    ∧ (Model.run { mirrorModel [] with actions := [ModelAction.delete] }
        [(⟨"users", "u1"⟩, [("mirrorId", Value.str "m1")])] {}).error = none :=
  claim9_mirror_delete_stale_raw_data
    { mirrorModel [] with actions := [ModelAction.delete] }
    [(⟨"users", "u1"⟩, [("mirrorId", Value.str "m1")])]
    mirrorRule "mirrorId" [("mirrorId", Value.str "m1")] "m1" {}
    rfl rfl rfl rfl (by decide) rfl rfl rfl

/-! ## Claim analysis: mirror skip conditions (C8) -/

theorem DataMap.insert_ne_nil (m : DataMap) (k : String) (v : Value) :
    m.insert k v ≠ [] := by
  cases m with
  | nil => simp [DataMap.insert]
  | cons hd tl =>
    simp only [DataMap.insert]
    split <;> simp

theorem DataMap.isEmpty_eq_false_of_ne_nil (m : DataMap) (h : m ≠ []) :
    DataMap.isEmpty m = false := by
  cases m with
  | nil => exact absurd rfl h
  | cons hd tl => rfl

theorem applyPayload_false_ne_nil (p : DataMap) : ∀ (acc : DataMap), acc ≠ [] →
    applyPayload false acc p ≠ [] := by
  induction p with
  | nil => intro acc h; simpa [applyPayload] using h
  | cons kv tl ih =>
    intro acc h
    have hstep : applyPayload false acc (kv :: tl)
        = applyPayload false (acc.insert kv.1 kv.2) tl := by
      simp [applyPayload]
    rw [hstep]
    exact ih _ (DataMap.insert_ne_nil acc kv.1 kv.2)

theorem applyPayload_false_cons_ne_nil (kv : String × Value) (p : DataMap) :
    applyPayload false [] (kv :: p) ≠ [] := by
  have hstep : applyPayload false [] (kv :: p)
      = applyPayload false [(kv.1, kv.2)] p := by
    simp [applyPayload, DataMap.insert]
  rw [hstep]
  exact applyPayload_false_ne_nil p _ (by simp)

theorem buildMirrorData_keys_subset (data : DataMap) (fields : List String) :
    ∀ k ∈ DataMap.keysOf (buildMirrorData data fields), k ∈ fields := by
  induction fields with
  | nil => intro k hk; simp [buildMirrorData, DataMap.keysOf] at hk
  | cons f rest ih =>
    intro k hk
    rw [buildMirrorData] at hk
    split at hk
    · simp only [DataMap.keysOf, List.map_cons, List.mem_cons] at hk
      rcases hk with h1 | h2
      · exact h1 ▸ List.mem_cons_self f rest
      · exact List.mem_cons_of_mem f (ih k h2)
    · exact List.mem_cons_of_mem f (ih k hk)

/-- `Model.validate` never reads the active run configuration, so swapping
it leaves the verdict unchanged. -/
theorem validate_currentRunConfig (m : Model) (c : SchemaConfig) :
    Model.validate { m with currentRunConfig := c } = Model.validate m := rfl

/-- C8.  For every create/update mirror step: the outgoing mirror payload is
filtered down to the mirror rule's selected fields (every key of the
filtered payload is a selected field); and when the filtered payload is
empty or the resolved mirror id is missing, the mirror write is skipped
non-fatally — a log message is emitted, no mirror write op is issued, the
primary document write still proceeds (the update-merge write on the update
path, the create set on the create path), and the run reports no error. -/
theorem claim8_mirror_skip_non_fatal (mu mc : Model) (db : Database)
    (p q : DataMap) (rule : MirrorRule) (config : RunConfig)
    (huact : mu.actions = [ModelAction.update p]) (hp : p ≠ [])
    (humir : mu.schema.mirror = some rule)
    (huid : mu.id ≠ "")
    (humircfg : (mu.schema.config.mergeRun config).mirror = true)
    (huvalid : Model.validate mu = none)
    (hforce : config.forceGet.getD false = false)
    (huskip : (∃ f, rule.idField = some f ∧ valueToId (DataMap.lookup mu.rawData f) = none)
      ∨ buildMirrorData (buildUpdatedData false mu.actions) rule.fields = [])
    (hcact : mc.actions = [ModelAction.create q])
    (hcmir : mc.schema.mirror = some rule)
    (hcid : mc.id ≠ "")
    (hcmircfg : (mc.schema.config.mergeRun config).mirror = true)
    (hcvalid : Model.validate mc = none)
    (hcskip : (∃ f, rule.idField = some f ∧ valueToId (DataMap.lookup mc.rawData f) = none)
      ∨ buildMirrorData (buildUpdatedData true mc.actions) rule.fields = []) :
    ((Model.run mu db config).ops
        = [WriteOp.update mu.doc (buildUpdatedData false mu.actions)]
      ∧ (Model.run mu db config).logs ≠ []
      ∧ (Model.run mu db config).error = none)
    ∧ ((Model.run mc db config).ops
        = [WriteOp.set mc.doc (buildUpdatedData true mc.actions) false]
      ∧ (Model.run mc db config).logs ≠ []
      ∧ (Model.run mc db config).error = none)
    ∧ (∀ d k, k ∈ DataMap.keysOf (buildMirrorData d rule.fields) → k ∈ rule.fields) := by
  obtain ⟨kv, p', rfl⟩ : ∃ kv p', p = kv :: p' := by
    cases p with
    | nil => exact absurd rfl hp
    | cons a b => exact ⟨a, b, rfl⟩
  have huidb : (mu.id == "") = false := by simp [huid]
  have hcidb : (mc.id == "") = false := by simp [hcid]
  have hne : DataMap.isEmpty (applyPayload false [] (kv :: p')) = false :=
    DataMap.isEmpty_eq_false_of_ne_nil _ (applyPayload_false_cons_ne_nil kv p')
  have huval : Model.validate
      { schema := mu.schema, actions := [ModelAction.update (kv :: p')],
        rawData := mu.rawData, baseData := mu.baseData, errors := mu.errors,
        lastRunStatus := mu.lastRunStatus, existsViaCreation := mu.existsViaCreation,
        actionsRun := mu.actionsRun, hasRunSuccessfully := mu.hasRunSuccessfully,
        currentRunConfig := mu.schema.config.mergeRun config,
        doc := mu.doc, id := mu.id, snap := mu.snap } = none := by
    rw [← huact]; exact huvalid
  have hcval : Model.validate
      { schema := mc.schema, actions := [ModelAction.create q],
        rawData := mc.rawData, baseData := mc.baseData, errors := mc.errors,
        lastRunStatus := mc.lastRunStatus, existsViaCreation := mc.existsViaCreation,
        actionsRun := mc.actionsRun, hasRunSuccessfully := mc.hasRunSuccessfully,
        currentRunConfig := mc.schema.config.mergeRun config,
        doc := mc.doc, id := mc.id, snap := mc.snap } = none := by
    rw [← hcact]; exact hcvalid
  refine ⟨?_, ?_, fun d k hk => buildMirrorData_keys_subset d rule.fields k hk⟩
  · rcases huskip with ⟨f, hidf, hlocal⟩ | hfil
    · simp [Model.run, Model.attempt, Model.attemptTail, huact, hforce, humir, hidf, hlocal,
        huidb, humircfg, huval, hne,
        actionsContainDelete, findQueryAction, actionsContainCallback, actionsContainFind,
        actionsContainFindOrCreate, actionsContainCreate, buildUpdatedData, buildUpdatedStep,
        createTransactionState, updateTransactionStep, Model.throwIfInvalid,
        Model.mirrorTransaction, Model.canMirror, Model.mirrorIdOf,
        Model.updateModelWithTransactionState, Model.manageLastRunStatus,
        Model.forceGetIfNeeded]
    · rw [huact] at hfil
      simp only [buildUpdatedData, List.foldl_cons, List.foldl_nil, buildUpdatedStep] at hfil
      have hde : DataMap.isEmpty (buildMirrorData (applyPayload false [] (kv :: p')) rule.fields)
          = true := by rw [hfil]; rfl
      cases hidf : rule.idField with
      | some f =>
        cases hloc : valueToId (DataMap.lookup mu.rawData f) with
        | none =>
          simp [Model.run, Model.attempt, Model.attemptTail, huact, hforce, humir, hidf, hloc,
            huidb, humircfg, huval, hne,
            actionsContainDelete, findQueryAction, actionsContainCallback, actionsContainFind,
            actionsContainFindOrCreate, actionsContainCreate, buildUpdatedData, buildUpdatedStep,
            createTransactionState, updateTransactionStep, Model.throwIfInvalid,
            Model.mirrorTransaction, Model.canMirror, Model.mirrorIdOf,
            Model.updateModelWithTransactionState, Model.manageLastRunStatus,
            Model.forceGetIfNeeded]
        | some mid =>
          simp [Model.run, Model.attempt, Model.attemptTail, huact, hforce, humir, hidf, hloc,
            huidb, humircfg, huval, hne, hde,
            actionsContainDelete, findQueryAction, actionsContainCallback, actionsContainFind,
            actionsContainFindOrCreate, actionsContainCreate, buildUpdatedData, buildUpdatedStep,
            createTransactionState, updateTransactionStep, Model.throwIfInvalid,
            Model.mirrorTransaction, Model.canMirror, Model.mirrorIdOf,
            Model.updateModelWithTransactionState, Model.manageLastRunStatus,
            Model.forceGetIfNeeded]
      | none =>
        simp [Model.run, Model.attempt, Model.attemptTail, huact, hforce, humir, hidf,
          huidb, humircfg, huval, hne, hde,
          actionsContainDelete, findQueryAction, actionsContainCallback, actionsContainFind,
          actionsContainFindOrCreate, actionsContainCreate, buildUpdatedData, buildUpdatedStep,
          createTransactionState, updateTransactionStep, Model.throwIfInvalid,
          Model.mirrorTransaction, Model.canMirror, Model.mirrorIdOf,
          Model.updateModelWithTransactionState, Model.manageLastRunStatus,
          Model.forceGetIfNeeded]
  · rcases hcskip with ⟨f, hidf, hlocal⟩ | hfil
    · simp [Model.run, Model.attempt, Model.attemptTail, hcact, hforce, hcmir, hidf, hlocal,
        hcidb, hcmircfg, hcval,
        actionsContainDelete, findQueryAction, actionsContainCallback, actionsContainFind,
        actionsContainFindOrCreate, actionsContainCreate, buildUpdatedData, buildUpdatedStep,
        createTransactionState, createTransactionStep, Model.throwIfInvalid,
        Model.mirrorTransaction, Model.canMirror, Model.mirrorIdOf,
        Model.updateModelWithTransactionState, Model.manageLastRunStatus,
        Model.forceGetIfNeeded]
    · rw [hcact] at hfil
      simp only [buildUpdatedData, List.foldl_cons, List.foldl_nil, buildUpdatedStep] at hfil
      have hde : DataMap.isEmpty (buildMirrorData (applyPayload true [] q) rule.fields)
          = true := by rw [hfil]; rfl
      cases hidf : rule.idField with
      | some f =>
        cases hloc : valueToId (DataMap.lookup mc.rawData f) with
        | none =>
          simp [Model.run, Model.attempt, Model.attemptTail, hcact, hforce, hcmir, hidf, hloc,
            hcidb, hcmircfg, hcval,
            actionsContainDelete, findQueryAction, actionsContainCallback, actionsContainFind,
            actionsContainFindOrCreate, actionsContainCreate, buildUpdatedData, buildUpdatedStep,
            createTransactionState, createTransactionStep, Model.throwIfInvalid,
            Model.mirrorTransaction, Model.canMirror, Model.mirrorIdOf,
            Model.updateModelWithTransactionState, Model.manageLastRunStatus,
            Model.forceGetIfNeeded]
        | some mid =>
          simp [Model.run, Model.attempt, Model.attemptTail, hcact, hforce, hcmir, hidf, hloc,
            hcidb, hcmircfg, hcval, hde,
            actionsContainDelete, findQueryAction, actionsContainCallback, actionsContainFind,
            actionsContainFindOrCreate, actionsContainCreate, buildUpdatedData, buildUpdatedStep,
            createTransactionState, createTransactionStep, Model.throwIfInvalid,
            Model.mirrorTransaction, Model.canMirror, Model.mirrorIdOf,
            Model.updateModelWithTransactionState, Model.manageLastRunStatus,
            Model.forceGetIfNeeded]
      | none =>
        simp [Model.run, Model.attempt, Model.attemptTail, hcact, hforce, hcmir, hidf,
          hcidb, hcmircfg, hcval, hde,
          actionsContainDelete, findQueryAction, actionsContainCallback, actionsContainFind,
          actionsContainFindOrCreate, actionsContainCreate, buildUpdatedData, buildUpdatedStep,
          createTransactionState, createTransactionStep, Model.throwIfInvalid,
          Model.mirrorTransaction, Model.canMirror, Model.mirrorIdOf,
          Model.updateModelWithTransactionState, Model.manageLastRunStatus,
          Model.forceGetIfNeeded]

/-- Witness for C8: with the mirror rule selecting `a` and `b`, an update
touching only `c` skips the mirror write with a log while the primary
update write proceeds, and a create whose folded payload holds only `c`
skips the mirror write with a log while the primary create set proceeds. -/
theorem claim8_mirror_skip_non_fatal_witness :
    ((Model.run
        { mirrorModel [("mirrorId", Value.str "m1")] with
            actions := [ModelAction.update [("c", Value.num 2)]] }
        [] {}).ops
      = [WriteOp.update
          ({ mirrorModel [("mirrorId", Value.str "m1")] with
              actions := [ModelAction.update [("c", Value.num 2)]] } : Model).doc
          (buildUpdatedData false [ModelAction.update [("c", Value.num 2)]])]
    ∧ (Model.run
        { mirrorModel [("mirrorId", Value.str "m1")] with
            actions := [ModelAction.update [("c", Value.num 2)]] }
        [] {}).logs ≠ []
    ∧ (Model.run
        { mirrorModel [("mirrorId", Value.str "m1")] with
            actions := [ModelAction.update [("c", Value.num 2)]] }
        [] {}).error = none)
    ∧ ((Model.run
        { mirrorModel [("mirrorId", Value.str "m1")] with
            actions := [ModelAction.create [("c", Value.num 2)]] }
        [] {}).ops
      = [WriteOp.set
          ({ mirrorModel [("mirrorId", Value.str "m1")] with
              actions := [ModelAction.create [("c", Value.num 2)]] } : Model).doc
          (buildUpdatedData true [ModelAction.create [("c", Value.num 2)]]) false]
    ∧ (Model.run
        { mirrorModel [("mirrorId", Value.str "m1")] with
            actions := [ModelAction.create [("c", Value.num 2)]] }
        [] {}).logs ≠ []
    ∧ (Model.run
        { mirrorModel [("mirrorId", Value.str "m1")] with
            actions := [ModelAction.create [("c", Value.num 2)]] }
        [] {}).error = none)
    ∧ (∀ d k, k ∈ DataMap.keysOf (buildMirrorData d mirrorRule.fields)
        → k ∈ mirrorRule.fields) :=
  claim8_mirror_skip_non_fatal
    { mirrorModel [("mirrorId", Value.str "m1")] with
        actions := [ModelAction.update [("c", Value.num 2)]] }
    { mirrorModel [("mirrorId", Value.str "m1")] with
        actions := [ModelAction.create [("c", Value.num 2)]] }
    [] [("c", Value.num 2)] [("c", Value.num 2)] mirrorRule {}
    rfl (by simp) rfl (by decide) rfl rfl rfl (Or.inr rfl)
    rfl rfl (by decide) rfl rfl (Or.inr rfl)

/-! ## Claim analysis: run cleanup and error propagation (C6) -/

theorem getTransactionStep_errors (db : Database) (doc : DocRef)
    (s : TransactionState) (noData : Bool) :
    ((getTransactionStep db doc s noData).1).errors = s.errors := by
  unfold getTransactionStep
  split <;> rfl

theorem queryTransactionStep_errors (db : Database) (collection : String)
    (cs : List QueryClause) (s : TransactionState) :
    ((queryTransactionStep db collection cs s).1).errors = s.errors := by
  unfold queryTransactionStep
  split <;> rfl

theorem runCallbacksStep_errors (m : Model) (s : TransactionState) :
    (runCallbacksStep m s).errors = s.errors := rfl

theorem createTransactionStep_errors (doc : DocRef) (d : DataMap)
    (s : TransactionState) (force : Bool) :
    ((createTransactionStep doc d s force).1).errors = s.errors := rfl

theorem updateTransactionStep_errors (doc : DocRef) (d : DataMap) (s : TransactionState) :
    ((updateTransactionStep doc d s).1).errors = s.errors := rfl

theorem deleteTransactionStep_errors (doc : DocRef) (s : TransactionState) :
    ((deleteTransactionStep doc s).1).errors = s.errors := rfl

theorem attemptTail_ok_errors (m : Model) (db : Database) (g : Bool) (doc : DocRef)
    (d1 d2 : DataMap) (s : TransactionState) (ops : List WriteOp) (r : AttemptResult)
    (h : m.attemptTail db g doc d1 d2 s ops = .ok r) : r.state.errors = s.errors := by
  unfold Model.attemptTail at h
  simp only [] at h
  repeat' split at h
  all_goals try (exfalso; exact Except.noConfusion h)
  all_goals
    (injection h with h2
     subst h2
     simp [getTransactionStep_errors, createTransactionStep_errors,
       updateTransactionStep_errors])

theorem attempt_ok_errors (m : Model) (db : Database) (g : Bool) (r : AttemptResult)
    (h : m.attempt db g = .ok r) : r.state.errors = [] := by
  unfold Model.attempt at h
  simp only [] at h
  repeat' split at h
  all_goals try (exfalso; exact Except.noConfusion h)
  all_goals
    first
    | (injection h with h2
       subst h2
       simp [getTransactionStep_errors, createTransactionStep_errors,
         deleteTransactionStep_errors, queryTransactionStep_errors,
         runCallbacksStep_errors, createTransactionState])
    | (rw [attemptTail_ok_errors m db g _ _ _ _ _ r h]
       simp [getTransactionStep_errors, queryTransactionStep_errors,
         runCallbacksStep_errors, createTransactionState])

theorem updateModel_schema (m : Model) (s : TransactionState) :
    (m.updateModelWithTransactionState s).schema = m.schema := by
  unfold Model.updateModelWithTransactionState
  simp only []
  repeat' split
  all_goals rfl

theorem updateModel_errors (m : Model) (s : TransactionState) :
    (m.updateModelWithTransactionState s).errors = s.errors := by
  unfold Model.updateModelWithTransactionState
  simp only []
  repeat' split
  all_goals rfl

theorem manageLastRunStatus_schema (m : Model) :
    m.manageLastRunStatus.schema = m.schema := by
  unfold Model.manageLastRunStatus
  split <;> rfl

theorem manageLastRunStatus_errors (m : Model) :
    m.manageLastRunStatus.errors = m.errors := by
  unfold Model.manageLastRunStatus
  split <;> rfl

theorem forceGetIfNeeded_schema (m : Model) (db : Database) (config : RunConfig) :
    ((m.forceGetIfNeeded db config).1).schema = m.schema := by
  unfold Model.forceGetIfNeeded
  repeat' split
  all_goals rfl

/-- C6.  Every `run()` invocation — whether it succeeds or throws — leaves
the per-run transient fields reset by the guaranteed-cleanup step: `errors`
is empty, `lastRunStatus` is cleared, `actionsRun` is the empty record and
the active run configuration is back to the schema's defaults; and whenever
an error is thrown, the local optimistic state (raw data and action log) is
exactly as it was before the call. -/
theorem claim6_run_cleanup (m : Model) (db : Database) (config : RunConfig) :
    (Model.run m db config).model.errors = []
    ∧ (Model.run m db config).model.lastRunStatus = none
    ∧ (Model.run m db config).model.actionsRun = ModelActions.empty
    ∧ (Model.run m db config).model.currentRunConfig = m.schema.config
    ∧ ((Model.run m db config).error ≠ none →
        (Model.run m db config).model.rawData = m.rawData
        ∧ (Model.run m db config).model.actions = m.actions) := by
  unfold Model.run
  simp only []
  split
  · simp [Model.finallyReset, ModelActions.empty]
  · split
    · simp [Model.finallyReset, ModelActions.empty]
    · rename_i r heq
      have herr : r.state.errors = [] := attempt_ok_errors _ db _ r heq
      split
      · simp [Model.finallyReset, ModelActions.empty, updateModel_schema,
          manageLastRunStatus_schema, forceGetIfNeeded_schema]
      · rename_i hne
        exfalso
        apply hne
        simp [manageLastRunStatus_errors, updateModel_errors, herr]

/-- A schema whose codec requires field `a`. -/
def requireASchema : Schema := { sampleSchema with codecProps := ["a"] }

/-- A concrete model that will fail auto-validation on create: the codec
requires `a` but the model carries no data at all. -/
def invalidCreateModel : Model :=
  { sampleModel [] with schema := requireASchema, actions := [ModelAction.create []] }

/-- Witness for C6 at a concrete run that throws a validation error. -/
theorem claim6_run_cleanup_witness :
    (Model.run invalidCreateModel [] {}).error = some ErrorKind.validation
    ∧ (Model.run invalidCreateModel [] {}).model.errors = []
    ∧ (Model.run invalidCreateModel [] {}).model.lastRunStatus = none
    ∧ (Model.run invalidCreateModel [] {}).model.actionsRun = ModelActions.empty
    ∧ (Model.run invalidCreateModel [] {}).model.currentRunConfig
        = invalidCreateModel.schema.config
    ∧ (Model.run invalidCreateModel [] {}).model.rawData = invalidCreateModel.rawData
    ∧ (Model.run invalidCreateModel [] {}).model.actions = invalidCreateModel.actions := by
  have h := claim6_run_cleanup invalidCreateModel [] {}
  have he : (Model.run invalidCreateModel [] {}).error = some ErrorKind.validation := rfl
  have hp := h.2.2.2.2 (by rw [he]; simp)
  exact ⟨he, h.1, h.2.1, h.2.2.1, h.2.2.2.1, hp.1, hp.2⟩
